import Mathlib

/-!
Verification of the Name Generation Request Pipeline of the pet-name
generator (`src/main.py`, class `PetNameGenerator`).

Python strings are modelled as `List Char` (`Str`).  `str.strip()` is
`pyStrip` (both-ends removal of ASCII whitespace), `str.lower()` is
`List.map Char.toLower` (ASCII case mapping, matching CPython on the
ASCII range), and `str.split("|")` is `splitOnChar '|'`.

The external text-generation service (`self.chain.invoke`) is modelled
as an oracle `Service : Str → Nat → Except Str Str`: it receives the
formatted prompt and the 0-based index of the call, and either raises
an exception carrying a message (`Except.error`) or returns the
response content (`Except.ok`).  Exceptions are modelled with
`Except Str`; the value `str(e)` of a Python exception `e` is the
carried message.

`generate_name` returns the pair of (outer behaviour, number of service
invocations).  The outer behaviour is `Except Str (Option GenResult)`:
`Except.error m` would be an exception escaping `generate_name`,
`Except.ok none` is Python falling off the end of the function
(returning `None`), and `Except.ok (some r)` is a returned result
record.  The invocation counter is instrumentation used to state the
attempt-count claims; it counts every `chain.invoke` call, whether or
not that call raises.
-/

/-- Python strings, modelled as their character sequences. -/
abbrev Str := List Char

/-- ASCII whitespace recognised by `str.strip()`:
space, tab, newline, carriage return, vertical tab, form feed. -/
def isSpaceChar (c : Char) : Bool :=
  decide (c.toNat = 32) || decide (c.toNat = 9) || decide (c.toNat = 10) ||
  decide (c.toNat = 13) || decide (c.toNat = 11) || decide (c.toNat = 12)

/-- Removal of trailing whitespace (the right half of `str.strip()`). -/
def rdropWs (s : Str) : Str :=
  (s.reverse.dropWhile isSpaceChar).reverse

/-- Python `str.strip()`: remove leading and trailing whitespace. -/
def pyStrip (s : Str) : Str :=
  rdropWs (s.dropWhile isSpaceChar)

/-- Python `str.lower()` (ASCII case mapping). -/
def pyLower (s : Str) : Str :=
  s.map Char.toLower

/-- Python `str.split(d)` for a one-character separator `d`:
`"".split(d) = [""]`, and in general one more segment than there are
occurrences of `d`. -/
def splitOnChar (d : Char) : Str → List Str
  | [] => [[]]
  | c :: cs =>
    if c = d then [] :: splitOnChar d cs
    else
      match splitOnChar d cs with
      | [] => [[c]]
      | s :: ss => (c :: s) :: ss

/-- The message of the `ValueError` raised by the tuple-unpacking
`name, explanation, fun_fact, nickname = ...split("|")` when the split
produced `n ≠ 4` parts. -/
def unpackErrMsg (n : Nat) : Str :=
  if n < 4 then
    ("not enough values to unpack (expected 4, got " ++ toString n ++ ")").data
  else
    "too many values to unpack (expected 4)".data

/-- The message of the `ValueError` raised by the validation check. -/
def validationMsg : Str :=
  "Animal type and color cannot be empty".data

/-- The prefix prepended by the outer exception handler:
`error_msg = f"Failed to generate name: {str(e)}"`. -/
def errMsgHead : Str :=
  "Failed to generate name: ".data

/-- The result record returned by `generate_name` (the Python dict with
keys `name`, `explanation`, `fun_fact`, `nickname`, `error`; a `none`
field is Python `None`). -/
structure GenResult where
  name : Option Str
  explanation : Option Str
  fun_fact : Option Str
  nickname : Option Str
  error : Option Str
deriving Repr, DecidableEq

/-- The success record built at `src/main.py` lines 65-71. -/
def successResult (n e f k : Str) : GenResult :=
  { name := some (pyStrip n), explanation := some (pyStrip e),
    fun_fact := some (pyStrip f), nickname := some (pyStrip k), error := none }

/-- The failure record built at `src/main.py` lines 80-86 from the
exception message `e`. -/
def failureResult (e : Str) : GenResult :=
  { name := none, explanation := none, fun_fact := none, nickname := none,
    error := some (errMsgHead ++ e) }

/-- The external service oracle: prompt and call index to outcome. -/
abbrev Service := Str → Nat → Except Str Str

instance {ε α : Type} [DecidableEq ε] [DecidableEq α] : DecidableEq (Except ε α) := fun x y =>
  match x, y with
  | Except.ok a, Except.ok b =>
    if h : a = b then isTrue (by rw [h]) else isFalse (by simp [h])
  | Except.ok _, Except.error _ => isFalse (by simp)
  | Except.error _, Except.ok _ => isFalse (by simp)
  | Except.error a, Except.error b =>
    if h : a = b then isTrue (by rw [h]) else isFalse (by simp [h])

/-- The body of `src/main.py` line 64:
`name, explanation, fun_fact, nickname = response.content.strip().split("|")`
followed by the construction of the success record.  Tuple unpacking
raises `ValueError` unless the split gives exactly 4 parts. -/
def parseResponse (content : Str) : Except Str GenResult :=
  match splitOnChar '|' (pyStrip content) with
  | [n, e, f, k] => Except.ok (successResult n e f k)
  | parts => Except.error (unpackErrMsg parts.length)

/-- One attempt of the loop body (`src/main.py` lines 63-64): invoke the
service, then parse.  An exception from either step is the attempt's
failure. -/
def invokeAndParse (svc : Service) (prompt : Str) (attempt : Nat) :
    Except Str GenResult :=
  match svc prompt attempt with
  | Except.error e => Except.error e
  | Except.ok content => parseResponse content

/-- The retry loop `for attempt in range(retries)` (`src/main.py` lines
61-75), iterating over the remaining attempt indices.  On success the
record is returned; on failure of the final attempt (`attempt ==
retries - 1`) the exception is re-raised; otherwise the next attempt
runs.  The second component counts service invocations made. -/
def attemptLoopGo (svc : Service) (prompt : Str) (retries : Nat) :
    List Nat → Option (Except Str GenResult) × Nat
  | [] => (none, 0)
  | attempt :: rest =>
    match invokeAndParse svc prompt attempt with
    | Except.ok r => (some (Except.ok r), 1)
    | Except.error e =>
      if attempt = retries - 1 then (some (Except.error e), 1)
      else
        let out := attemptLoopGo svc prompt retries rest
        (out.1, out.2 + 1)

/-- The retry loop run over `range(retries)`.  `none` means the loop
finished without returning or raising (possible only for `retries = 0`),
`some (Except.ok r)` a `return`, `some (Except.error e)` a re-raise. -/
def attemptLoop (svc : Service) (prompt : Str) (retries : Nat) :
    Option (Except Str GenResult) × Nat :=
  attemptLoopGo svc prompt retries (List.range retries)

/-- The prompt template of `src/main.py` lines 27-41, after the chat
template substitutes `{pet_color}` and `{animal_type}`: text before
`{pet_color}`. -/
def promptPre : Str :=
  "I need a creative and fitting name for my ".data

/-- The template text between `{pet_color}` and `{animal_type}`. -/
def promptMid : Str :=
  " ".data

/-- The template text after `{animal_type}`. -/
def promptPost : Str :=
  (".\n            Consider these aspects:\n            - The animal\x27s color and type\n            - Cultural references that might be fun\n            - How the name sounds when called out\n            - Any relevant mythology or history\n            - Current pop culture references if applicable\n            \n            Please respond with the following format, separated by |:\n            1. The name\n            2. A brief explanation of why you chose it\n            3. A fun fact related to the name\n            4. A suggested nickname\n            \n            For example: \"Luna | This name reflects both the cat\x27s mysterious nature and silver-gray color | Luna is the Roman goddess of the moon | Suggested nickname: Lunie").data

/-- The formatted prompt for given (already normalized) color and type. -/
def promptText (pet_color animal_type : Str) : Str :=
  promptPre ++ pet_color ++ promptMid ++ animal_type ++ promptPost

/-- The normalization applied at `src/main.py` lines 51-52:
`.lower().strip()`. -/
def normalizeField (s : Str) : Str :=
  pyStrip (pyLower s)

/-- The prompt actually sent to the service for raw inputs
`animal_type`, `pet_color` (after normalization). -/
def promptFor (animal_type pet_color : Str) : Str :=
  promptText (normalizeField pet_color) (normalizeField animal_type)

/-- The body of the outer `try` of `generate_name` (`src/main.py` lines
47-75): validation, normalization, and the attempt loop.
`Except.error` is an exception reaching the outer handler. -/
def generate_name_body (svc : Service) (animal_type pet_color : Str)
    (retries : Nat) : Except Str (Option GenResult) × Nat :=
  if pyStrip animal_type = [] ∨ pyStrip pet_color = [] then
    (Except.error validationMsg, 0)
  else
    match attemptLoop svc (promptFor animal_type pet_color) retries with
    | (none, c) => (Except.ok none, c)
    | (some (Except.ok r), c) => (Except.ok (some r), c)
    | (some (Except.error e), c) => (Except.error e, c)

/-- `PetNameGenerator.generate_name` (`src/main.py` lines 46-86): the
outer `try`/`except` wraps any exception from the body into a failure
record.  First component: the call's outer behaviour (`Except.error`
would be an exception escaping to the caller — provably never produced);
second component: the number of service invocations made. -/
def generate_name (svc : Service) (animal_type pet_color : Str)
    (retries : Nat) : Except Str (Option GenResult) × Nat :=
  match generate_name_body svc animal_type pet_color retries with
  | (Except.ok r, c) => (Except.ok r, c)
  | (Except.error e, c) => (Except.ok (some (failureResult e)), c)

/-- Prepend `x` to the first element of a list of strings (helper for
reasoning about `splitOnChar` on appended strings). -/
def consFirst (x : Str) : List Str → List Str
  | [] => [x]
  | s :: ss => (x ++ s) :: ss

/-- Append `x` to the last element of a list of strings. -/
def snocLast (x : Str) : List Str → List Str
  | [] => [x]
  | [s] => [s ++ x]
  | s :: s2 :: ss => s :: snocLast x (s2 :: ss)

/-- All characters of `w` are whitespace. -/
def allWs (w : Str) : Prop := ∀ c ∈ w, isSpaceChar c = true

instance decAllWs (w : Str) : Decidable (allWs w) :=
  inferInstanceAs (Decidable (∀ c ∈ w, isSpaceChar c = true))

/-- The success shape of a result record: every domain field holds a
string (is non-null) and `error` is null. -/
def allPopulated (r : GenResult) : Prop :=
  r.name.isSome = true ∧ r.explanation.isSome = true ∧
  r.fun_fact.isSome = true ∧ r.nickname.isSome = true ∧ r.error = none

/-- The failure shape of a result record: every domain field is null
and `error` holds a non-empty string. -/
def allNullWithError (r : GenResult) : Prop :=
  r.name = none ∧ r.explanation = none ∧ r.fun_fact = none ∧
  r.nickname = none ∧ ∃ e, r.error = some e ∧ e ≠ []

/-- `str(e)` of the exception that makes attempt `k` fail: the service
exception's own message if the call raises, otherwise the unpacking
`ValueError` message for the response's segment count. -/
def describeFailure (svc : Service) (p : Str) (k : Nat) : Str :=
  match svc p k with
  | Except.error m => m
  | Except.ok resp => unpackErrMsg (splitOnChar '|' (pyStrip resp)).length

/-- Stub service that raises on every call. -/
def svcRaise : Service := fun _ _ => Except.error "service unavailable".data

/-- Stub service that always answers with a well-formed 4-segment
response. -/
def svcGood : Service := fun _ _ =>
  Except.ok "Luna | moon name | Luna is the Roman goddess of the moon | Lunie".data

/-- Stub service that always answers with a malformed (1-segment)
response. -/
def svcMalformed : Service := fun _ _ => Except.ok "no delimiter here".data

/-- Stub service that answers malformed on calls 0 and 1 and well-formed
from call 2 on. -/
def svcFlaky : Service := fun _ k =>
  if k < 2 then Except.ok "oops".data
  else Except.ok " Shadow | dark coat | revered in Egypt | Shadie ".data

/-- Stub service that behaves like `svcGood` on the first three calls
and raises afterwards. -/
def svcGoodThenRaise : Service := fun p k =>
  if k < 3 then svcGood p k else Except.error "late failure".data

/-- Stub service that behaves like `svcGood` on prompt `p0` and raises
on any other prompt. -/
def svcGoodAt (p0 : Str) : Service := fun p k =>
  if p = p0 then svcGood p k else Except.error "wrong prompt".data

theorem char_toNat_ofNat (n : Nat) (h : n.isValidChar) : (Char.ofNat n).toNat = n := by
  simp [Char.ofNat, Char.ofNatAux, Char.toNat, dif_pos h, UInt32.toNat, BitVec.toNat_ofNatLt]

theorem isSpaceChar_toLower (c : Char) : isSpaceChar (Char.toLower c) = isSpaceChar c := by
  unfold Char.toLower
  by_cases h : c.toNat ≥ 65 ∧ c.toNat ≤ 90
  · rw [if_pos h]
    have hv : (c.toNat + 32).isValidChar := by
      unfold Nat.isValidChar
      omega
    have ht := char_toNat_ofNat (c.toNat + 32) hv
    have hl : isSpaceChar (Char.ofNat (c.toNat + 32)) = false := by
      simp only [isSpaceChar, ht, Bool.or_eq_false_iff, decide_eq_false_iff_not]
      omega
    have hr : isSpaceChar c = false := by
      simp only [isSpaceChar, Bool.or_eq_false_iff, decide_eq_false_iff_not]
      omega
    rw [hl, hr]
  · rw [if_neg h]

theorem splitOnChar_ne_nil (d : Char) (s : Str) : splitOnChar d s ≠ [] := by
  induction s with
  | nil => simp [splitOnChar]
  | cons c cs ih =>
    rw [splitOnChar]
    by_cases h : c = d
    · simp [h]
    · rw [if_neg h]
      match hm : splitOnChar d cs with
      | [] => simp
      | s :: ss => simp

theorem length_splitOnChar (d : Char) (s : Str) :
    (splitOnChar d s).length = s.count d + 1 := by
  induction s with
  | nil => simp [splitOnChar]
  | cons c cs ih =>
    rw [splitOnChar]
    by_cases h : c = d
    · subst h
      rw [if_pos rfl, List.length_cons, ih, List.count_cons_self]
    · rw [if_neg h, List.count_cons_of_ne (fun hdc => h hdc.symm)]
      match hm : splitOnChar d cs with
      | [] => exact absurd hm (splitOnChar_ne_nil d cs)
      | s :: ss =>
        rw [hm] at ih
        simp only [List.length_cons] at ih ⊢
        exact ih

theorem count_dropWhile_of_neg (p : Char → Bool) (d : Char) (l : Str)
    (h : p d = false) : (l.dropWhile p).count d = l.count d := by
  induction l with
  | nil => rfl
  | cons a t ih =>
    by_cases hpa : p a
    · rw [List.dropWhile_cons_of_pos hpa, ih, List.count_cons]
      have : ¬ a = d := by rintro rfl; rw [hpa] at h; cases h
      simp [this]
    · rw [List.dropWhile_cons_of_neg hpa]

theorem count_pyStrip (d : Char) (s : Str) (h : isSpaceChar d = false) :
    (pyStrip s).count d = s.count d := by
  unfold pyStrip rdropWs
  rw [List.count_reverse, count_dropWhile_of_neg _ _ _ h, List.count_reverse,
    count_dropWhile_of_neg _ _ _ h]

theorem length_split_pyStrip (d : Char) (s : Str) (h : isSpaceChar d = false) :
    (splitOnChar d (pyStrip s)).length = (splitOnChar d s).length := by
  rw [length_splitOnChar, length_splitOnChar, count_pyStrip _ _ h]

theorem splitOnChar_of_no_delim (d : Char) (b : Str) (h : ∀ c ∈ b, ¬ c = d) :
    splitOnChar d b = [b] := by
  induction b with
  | nil => rfl
  | cons c cs ih =>
    rw [splitOnChar, if_neg (h c (List.mem_cons_self c cs))]
    rw [ih (fun x hx => h x (List.mem_cons_of_mem c hx))]

theorem splitOnChar_append_left (d : Char) (a b : Str) (h : ∀ c ∈ a, ¬ c = d) :
    splitOnChar d (a ++ b) = consFirst a (splitOnChar d b) := by
  induction a with
  | nil =>
    simp only [List.nil_append]
    match hm : splitOnChar d b with
    | [] => exact absurd hm (splitOnChar_ne_nil d b)
    | s :: ss => simp [consFirst]
  | cons c cs ih =>
    rw [List.cons_append, splitOnChar, if_neg (h c (List.mem_cons_self c cs))]
    have ih' := ih (fun x hx => h x (List.mem_cons_of_mem c hx))
    match hm : splitOnChar d b with
    | [] => exact absurd hm (splitOnChar_ne_nil d b)
    | s :: ss =>
      rw [hm] at ih'
      simp only [consFirst] at ih'
      rw [ih']
      simp [consFirst]

theorem snocLast_ne_nil (x : Str) (l : List Str) : snocLast x l ≠ [] := by
  match l with
  | [] => simp [snocLast]
  | [s] => simp [snocLast]
  | s :: s2 :: ss => simp [snocLast]

theorem snocLast_cons_cons (x : Str) (s : Str) (s2 : Str) (ss : List Str) :
    snocLast x (s :: s2 :: ss) = s :: snocLast x (s2 :: ss) := rfl

theorem consFirst_snocLast_comm (x y : Str) (s : Str) (ss : List Str) :
    consFirst x (snocLast y (s :: ss)) = snocLast y (consFirst x (s :: ss)) := by
  match ss with
  | [] => simp [consFirst, snocLast, List.append_assoc]
  | s2 :: ss2 => simp [consFirst, snocLast]

theorem splitOnChar_append_right (d : Char) (a b : Str) (h : ∀ c ∈ b, ¬ c = d) :
    splitOnChar d (a ++ b) = snocLast b (splitOnChar d a) := by
  induction a with
  | nil =>
    simp only [List.nil_append, splitOnChar_of_no_delim d b h]
    rfl
  | cons c cs ih =>
    rw [List.cons_append, splitOnChar, splitOnChar]
    by_cases hc : c = d
    · rw [if_pos hc, if_pos hc, ih]
      match hm : splitOnChar d cs with
      | [] => exact absurd hm (splitOnChar_ne_nil d cs)
      | s :: ss => rw [snocLast_cons_cons]
    · rw [if_neg hc, if_neg hc]
      match hm : splitOnChar d cs with
      | [] => exact absurd hm (splitOnChar_ne_nil d cs)
      | s :: ss =>
        rw [hm] at ih
        match hcb : splitOnChar d (cs ++ b) with
        | [] => exact absurd hcb (splitOnChar_ne_nil d (cs ++ b))
        | t :: ts =>
          rw [hcb] at ih
          show (c :: t) :: ts = snocLast b ((c :: s) :: ss)
          have h1 : consFirst [c] (t :: ts) = consFirst [c] (snocLast b (s :: ss)) := by
            rw [ih]
          rw [consFirst_snocLast_comm] at h1
          simp only [consFirst] at h1
          simpa using h1

theorem rdropWs_nil : rdropWs [] = [] := rfl

theorem dropWhile_eq_nil_of_allWs (w : Str) (h : allWs w) :
    w.dropWhile isSpaceChar = [] := by
  rw [List.dropWhile_eq_nil_iff]
  exact h

theorem pyStrip_ws_append (w x : Str) (h : allWs w) :
    pyStrip (w ++ x) = pyStrip x := by
  unfold pyStrip
  rw [List.dropWhile_append, dropWhile_eq_nil_of_allWs w h]
  simp

theorem pyStrip_append_ws (x w : Str) (h : allWs w) :
    pyStrip (x ++ w) = pyStrip x := by
  unfold pyStrip
  rw [List.dropWhile_append]
  by_cases hx : (x.dropWhile isSpaceChar).isEmpty
  · rw [if_pos hx]
    rw [List.isEmpty_iff] at hx
    rw [hx, dropWhile_eq_nil_of_allWs w h, rdropWs_nil]
  · rw [if_neg hx]
    unfold rdropWs
    rw [List.reverse_append, List.dropWhile_append,
      dropWhile_eq_nil_of_allWs w.reverse (fun c hc => h c (List.mem_reverse.mp hc))]
    simp

theorem allWs_takeWhile (s : Str) : allWs (s.takeWhile isSpaceChar) :=
  fun _ hc => List.mem_takeWhile_imp hc

theorem pyStrip_decomp (s : Str) :
    ∃ w₁ w₂ : Str, allWs w₁ ∧ allWs w₂ ∧ s = w₁ ++ (pyStrip s ++ w₂) := by
  refine ⟨s.takeWhile isSpaceChar,
    ((s.dropWhile isSpaceChar).reverse.takeWhile isSpaceChar).reverse,
    allWs_takeWhile s, ?_, ?_⟩
  · intro c hc
    exact allWs_takeWhile _ c (List.mem_reverse.mp hc)
  · conv_lhs => rw [← List.takeWhile_append_dropWhile isSpaceChar s]
    congr 1
    unfold pyStrip rdropWs
    conv_lhs =>
      rw [← List.reverse_reverse (s.dropWhile isSpaceChar),
        ← List.takeWhile_append_dropWhile isSpaceChar (s.dropWhile isSpaceChar).reverse]
    rw [List.reverse_append]

theorem map_pyStrip_consFirst (w : Str) (h : allWs w) (s : Str) (ss : List Str) :
    (consFirst w (s :: ss)).map pyStrip = ((s :: ss).map pyStrip) := by
  simp only [consFirst, List.map_cons]
  rw [pyStrip_ws_append w s h]

theorem map_pyStrip_snocLast (w : Str) (h : allWs w) (l : List Str) (hl : l ≠ []) :
    (snocLast w l).map pyStrip = l.map pyStrip := by
  match l with
  | [] => exact absurd rfl hl
  | [s] =>
    simp only [snocLast, List.map_cons, List.map_nil]
    rw [pyStrip_append_ws s w h]
  | s :: s2 :: ss =>
    rw [snocLast_cons_cons, List.map_cons, List.map_cons,
      map_pyStrip_snocLast w h (s2 :: ss) (by simp)]

theorem no_delim_of_allWs (w : Str) (d : Char) (hw : allWs w)
    (hd : isSpaceChar d = false) : ∀ c ∈ w, ¬ c = d := by
  intro c hc hcd
  subst hcd
  rw [hw c hc] at hd
  cases hd

/-- Trimming each segment of the split of the stripped text (what the
code computes) gives the same list as trimming each segment of the
split of the raw text (what the spec describes), for a non-whitespace
delimiter. -/
theorem map_pyStrip_split_pyStrip (d : Char) (s : Str) (hd : isSpaceChar d = false) :
    (splitOnChar d (pyStrip s)).map pyStrip = (splitOnChar d s).map pyStrip := by
  obtain ⟨w₁, w₂, hw₁, hw₂, hs⟩ := pyStrip_decomp s
  conv_rhs => rw [hs]
  rw [splitOnChar_append_left d w₁ (pyStrip s ++ w₂) (no_delim_of_allWs w₁ d hw₁ hd)]
  rw [splitOnChar_append_right d (pyStrip s) w₂ (no_delim_of_allWs w₂ d hw₂ hd)]
  match hm : splitOnChar d (pyStrip s) with
  | [] => exact absurd hm (splitOnChar_ne_nil d (pyStrip s))
  | t :: ts =>
    match hsn : snocLast w₂ (t :: ts) with
    | [] => exact absurd hsn (snocLast_ne_nil w₂ (t :: ts))
    | u :: us =>
      rw [map_pyStrip_consFirst w₁ hw₁ u us, ← hsn,
        map_pyStrip_snocLast w₂ hw₂ (t :: ts) (by simp)]

theorem parseResponse_of_split4 (r n e f k : Str)
    (h : splitOnChar '|' (pyStrip r) = [n, e, f, k]) :
    parseResponse r = Except.ok (successResult n e f k) := by
  unfold parseResponse
  rw [h]

theorem parseResponse_of_len_ne (r : Str)
    (h : (splitOnChar '|' (pyStrip r)).length ≠ 4) :
    parseResponse r =
      Except.error (unpackErrMsg (splitOnChar '|' (pyStrip r)).length) := by
  unfold parseResponse
  split
  · next n e f k heq => rw [heq] at h; simp at h
  · next heq => rfl

theorem parseResponse_ok_shape (r : Str) (g : GenResult)
    (h : parseResponse r = Except.ok g) :
    ∃ n e f k, splitOnChar '|' (pyStrip r) = [n, e, f, k] ∧
      g = successResult n e f k := by
  unfold parseResponse at h
  split at h
  · next n e f k heq =>
    exact ⟨n, e, f, k, heq, (Except.ok.injEq .. ▸ h).symm⟩
  · next heq => cases h

theorem parseResponse_ok_iff (r : Str) :
    (∃ g, parseResponse r = Except.ok g) ↔
      (splitOnChar '|' (pyStrip r)).length = 4 := by
  constructor
  · rintro ⟨g, hg⟩
    obtain ⟨n, e, f, k, hsplit, _⟩ := parseResponse_ok_shape r g hg
    rw [hsplit]
    rfl
  · intro hlen
    match hm : splitOnChar '|' (pyStrip r) with
    | [n, e, f, k] => exact ⟨successResult n e f k, parseResponse_of_split4 r n e f k hm⟩
    | [] => rw [hm] at hlen; simp at hlen
    | [a] => rw [hm] at hlen; simp at hlen
    | [a, b] => rw [hm] at hlen; simp at hlen
    | [a, b, c] => rw [hm] at hlen; simp at hlen
    | a :: b :: c :: d :: e :: l => rw [hm] at hlen; simp at hlen

theorem invokeAndParse_ok_shape (svc : Service) (p : Str) (a : Nat) (g : GenResult)
    (h : invokeAndParse svc p a = Except.ok g) :
    ∃ n e f k, g = successResult n e f k := by
  unfold invokeAndParse at h
  split at h
  · cases h
  · next content heq =>
    obtain ⟨n, e, f, k, _, hg⟩ := parseResponse_ok_shape content g h
    exact ⟨n, e, f, k, hg⟩

theorem loopGo_congr (svc₁ svc₂ : Service) (p : Str) (retries : Nat) (l : List Nat)
    (h : ∀ k ∈ l, svc₁ p k = svc₂ p k) :
    attemptLoopGo svc₁ p retries l = attemptLoopGo svc₂ p retries l := by
  induction l with
  | nil => rfl
  | cons a l ih =>
    have hinv : invokeAndParse svc₁ p a = invokeAndParse svc₂ p a := by
      unfold invokeAndParse
      rw [h a (List.mem_cons_self a l)]
    rw [attemptLoopGo, attemptLoopGo, hinv,
      ih (fun k hk => h k (List.mem_cons_of_mem a hk))]

theorem loopGo_ok_head (svc : Service) (p : Str) (retries a : Nat) (l : List Nat)
    (r : GenResult) (h : invokeAndParse svc p a = Except.ok r) :
    attemptLoopGo svc p retries (a :: l) = (some (Except.ok r), 1) := by
  rw [attemptLoopGo, h]

theorem loopGo_error_head (svc : Service) (p : Str) (retries a : Nat) (l : List Nat)
    (e : Str) (h : invokeAndParse svc p a = Except.error e) :
    attemptLoopGo svc p retries (a :: l) =
      if a = retries - 1 then (some (Except.error e), 1)
      else ((attemptLoopGo svc p retries l).1, (attemptLoopGo svc p retries l).2 + 1) := by
  rw [attemptLoopGo, h]

theorem loopGo_allfail (svc : Service) (p : Str) (retries : Nat)
    (errOf : Nat → Str) :
    ∀ n start, start + n = retries → 1 ≤ n →
    (∀ k, start ≤ k → k < retries → invokeAndParse svc p k = Except.error (errOf k)) →
    attemptLoopGo svc p retries (List.range' start n) =
      (some (Except.error (errOf (retries - 1))), n) := by
  intro n
  induction n with
  | zero => intro start _ h1; cases h1
  | succ m ih =>
    intro start hsum _ herr
    rw [List.range'_succ,
      loopGo_error_head svc p retries start _ _ (herr start (Nat.le_refl start) (by omega))]
    by_cases hlast : start = retries - 1
    · have hm0 : m = 0 := by omega
      subst hm0
      rw [if_pos hlast, hlast]
    · rw [if_neg hlast]
      have hm1 : 1 ≤ m := by omega
      rw [ih (start + 1) (by omega) hm1
        (fun k hk1 hk2 => herr k (by omega) hk2)]

theorem loopGo_fail_then_ok (svc : Service) (p : Str) (retries : Nat)
    (r : GenResult) :
    ∀ k n start, start + n = retries → k < n →
    (∀ j, start ≤ j → j < start + k → ∃ e, invokeAndParse svc p j = Except.error e) →
    invokeAndParse svc p (start + k) = Except.ok r →
    attemptLoopGo svc p retries (List.range' start n) =
      (some (Except.ok r), k + 1) := by
  intro k
  induction k with
  | zero =>
    intro n start hsum hkn herr hok
    match n, hkn with
    | m + 1, _ =>
      rw [List.range'_succ]
      exact loopGo_ok_head svc p retries start _ r (by simpa using hok)
  | succ k ih =>
    intro n start hsum hkn herr hok
    match n, hkn with
    | m + 1, _ =>
      obtain ⟨e, he⟩ := herr start (Nat.le_refl start) (by omega)
      rw [List.range'_succ, loopGo_error_head svc p retries start _ _ he]
      have hlast : ¬ start = retries - 1 := by omega
      rw [if_neg hlast]
      rw [ih m (start + 1) (by omega) (by omega)
        (fun j hj1 hj2 => herr j (by omega) (by omega))
        (by rw [show start + 1 + k = start + (k + 1) by omega]; exact hok)]

theorem loopGo_total (svc : Service) (p : Str) (retries : Nat) :
    ∀ n start, start + n = retries → 1 ≤ n →
    ∃ out cnt, attemptLoopGo svc p retries (List.range' start n) = (some out, cnt) ∧
      ∀ g, out = Except.ok g → ∃ a b c d, g = successResult a b c d := by
  intro n
  induction n with
  | zero => intro start _ h1; cases h1
  | succ m ih =>
    intro start hsum _
    rw [List.range'_succ]
    match hinv : invokeAndParse svc p start with
    | Except.ok g =>
      refine ⟨Except.ok g, 1, loopGo_ok_head svc p retries start _ g hinv, ?_⟩
      rintro g' hg'
      cases hg'
      exact invokeAndParse_ok_shape svc p start g hinv
    | Except.error e =>
      rw [loopGo_error_head svc p retries start _ _ hinv]
      by_cases hlast : start = retries - 1
      · rw [if_pos hlast]
        exact ⟨Except.error e, 1, rfl, by rintro g hg; cases hg⟩
      · rw [if_neg hlast]
        have hm1 : 1 ≤ m := by omega
        obtain ⟨out, cnt, hloop, hshape⟩ := ih (start + 1) (by omega) hm1
        exact ⟨out, cnt + 1, by rw [hloop], hshape⟩

theorem sanity_split_empty : splitOnChar '|' "".data = [[]] := by decide

theorem sanity_pyStrip : pyStrip "  a b  ".data = "a b".data := by decide

theorem sanity_parse :
    parseResponse " Luna | nice | moon | Lunie ".data =
      Except.ok (successResult "Luna".data " nice ".data " moon ".data " Lunie ".data) := by
  decide

theorem sanity_allfail_three_calls :
    (generate_name svcRaise "cat".data "black".data 3).2 = 3 := by
  decide

theorem sanity_validation_shortcircuit :
    generate_name svcRaise "".data "black".data 3 =
      (Except.ok (some (failureResult validationMsg)), 0) := by
  decide

theorem sanity_success_one_call :
    generate_name svcGood "cat".data "black".data 3 =
      (Except.ok (some (successResult "Luna".data " moon name".data
        " Luna is the Roman goddess of the moon".data " Lunie".data)), 1) := by
  decide

theorem sanity_zero_retries :
    (generate_name svcGood "cat".data "black".data 0).1 = Except.ok none := by
  decide

theorem attemptLoop_eq_range' (svc : Service) (p : Str) (n : Nat) :
    attemptLoop svc p n = attemptLoopGo svc p n (List.range' 0 n) := by
  rw [attemptLoop, List.range_eq_range']

theorem generate_name_invalid (svc : Service) (animal_type pet_color : Str)
    (retries : Nat) (h : pyStrip animal_type = [] ∨ pyStrip pet_color = []) :
    generate_name svc animal_type pet_color retries =
      (Except.ok (some (failureResult validationMsg)), 0) ∧
    generate_name_body svc animal_type pet_color retries =
      (Except.error validationMsg, 0) := by
  have hb : generate_name_body svc animal_type pet_color retries =
      (Except.error validationMsg, 0) := by
    rw [generate_name_body, if_pos h]
  exact ⟨by rw [generate_name, hb], hb⟩

theorem generate_name_valid_ok (svc : Service) (animal_type pet_color : Str)
    (retries : Nat) (h : ¬(pyStrip animal_type = [] ∨ pyStrip pet_color = []))
    (r : GenResult) (c : Nat)
    (hl : attemptLoop svc (promptFor animal_type pet_color) retries =
      (some (Except.ok r), c)) :
    generate_name svc animal_type pet_color retries = (Except.ok (some r), c) := by
  rw [generate_name, generate_name_body, if_neg h, hl]

theorem generate_name_valid_err (svc : Service) (animal_type pet_color : Str)
    (retries : Nat) (h : ¬(pyStrip animal_type = [] ∨ pyStrip pet_color = []))
    (e : Str) (c : Nat)
    (hl : attemptLoop svc (promptFor animal_type pet_color) retries =
      (some (Except.error e), c)) :
    generate_name svc animal_type pet_color retries =
      (Except.ok (some (failureResult e)), c) := by
  rw [generate_name, generate_name_body, if_neg h, hl]

theorem generate_name_valid_none (svc : Service) (animal_type pet_color : Str)
    (retries : Nat) (h : ¬(pyStrip animal_type = [] ∨ pyStrip pet_color = []))
    (c : Nat)
    (hl : attemptLoop svc (promptFor animal_type pet_color) retries = (none, c)) :
    generate_name svc animal_type pet_color retries = (Except.ok none, c) := by
  rw [generate_name, generate_name_body, if_neg h, hl]

theorem isSpaceChar_bar : isSpaceChar '|' = false := by decide

theorem attempt_fails (svc : Service) (p : Str) (k : Nat)
    (h : (∃ m, svc p k = Except.error m) ∨
      (∃ resp, svc p k = Except.ok resp ∧ (splitOnChar '|' resp).length ≠ 4)) :
    invokeAndParse svc p k = Except.error (describeFailure svc p k) := by
  rcases h with ⟨m, hm⟩ | ⟨resp, hresp, hlen⟩
  · rw [invokeAndParse, describeFailure, hm]
  · rw [invokeAndParse, describeFailure, hresp]
    have hlen' : (splitOnChar '|' (pyStrip resp)).length ≠ 4 := by
      rw [length_split_pyStrip '|' resp isSpaceChar_bar]
      exact hlen
    exact parseResponse_of_len_ne resp hlen'

theorem errMsg_ne_nil (e : Str) : errMsgHead ++ e ≠ [] := by
  intro h
  have := congrArg List.length h
  simp [errMsgHead] at this

theorem failureResult_shape (e : Str) : allNullWithError (failureResult e) := by
  refine ⟨rfl, rfl, rfl, rfl, errMsgHead ++ e, rfl, errMsg_ne_nil e⟩

theorem successResult_shape (n e f k : Str) : allPopulated (successResult n e f k) := by
  exact ⟨rfl, rfl, rfl, rfl, rfl⟩

theorem not_both_shapes (r : GenResult) :
    allPopulated r → allNullWithError r → False := by
  rintro ⟨h1, _, _, _, _⟩ ⟨h2, _, _, _, _⟩
  rw [h2] at h1
  cases h1

theorem pyStrip_pyLower (s : Str) : pyStrip (pyLower s) = pyLower (pyStrip s) := by
  have hws : (fun c => isSpaceChar (Char.toLower c)) = isSpaceChar := by
    funext c
    exact isSpaceChar_toLower c
  unfold pyStrip rdropWs pyLower
  rw [List.dropWhile_map]
  simp only [Function.comp_def, hws]
  rw [← List.map_reverse, List.dropWhile_map]
  simp only [Function.comp_def, hws]
  rw [← List.map_reverse]

theorem allWs_pyLower (w : Str) (h : allWs w) : allWs (pyLower w) := by
  intro c hc
  rw [pyLower, List.mem_map] at hc
  obtain ⟨a, ha, rfl⟩ := hc
  rw [isSpaceChar_toLower]
  exact h a ha

theorem normalizeField_ne_nil (s : Str) (h : pyStrip s ≠ []) :
    normalizeField s ≠ [] := by
  rw [normalizeField, pyStrip_pyLower]
  intro hc
  rw [pyLower] at hc
  exact h (List.map_eq_nil_iff.mp hc)

theorem normalizeField_ws_pad (s w₁ w₂ : Str) (h₁ : allWs w₁) (h₂ : allWs w₂) :
    normalizeField (w₁ ++ s ++ w₂) = normalizeField s := by
  have hsplit : pyLower (w₁ ++ s ++ w₂) = pyLower w₁ ++ (pyLower s ++ pyLower w₂) := by
    simp [pyLower, List.append_assoc]
  rw [normalizeField, normalizeField, hsplit,
    pyStrip_ws_append _ _ (allWs_pyLower w₁ h₁),
    pyStrip_append_ws _ _ (allWs_pyLower w₂ h₂)]

theorem generate_name_congr (svc₁ svc₂ : Service) (animal_type pet_color : Str)
    (retries : Nat)
    (h : ∀ k, k < retries →
      svc₁ (promptFor animal_type pet_color) k = svc₂ (promptFor animal_type pet_color) k) :
    generate_name svc₁ animal_type pet_color retries =
      generate_name svc₂ animal_type pet_color retries := by
  by_cases hv : pyStrip animal_type = [] ∨ pyStrip pet_color = []
  · rw [(generate_name_invalid svc₁ animal_type pet_color retries hv).1,
      (generate_name_invalid svc₂ animal_type pet_color retries hv).1]
  · have hloop : attemptLoop svc₁ (promptFor animal_type pet_color) retries =
        attemptLoop svc₂ (promptFor animal_type pet_color) retries := by
      rw [attemptLoop, attemptLoop]
      exact loopGo_congr svc₁ svc₂ _ retries (List.range retries)
        (fun k hk => h k (List.mem_range.mp hk))
    rw [generate_name, generate_name, generate_name_body, generate_name_body,
      if_neg hv, if_neg hv, hloop]

theorem length_eq_four_shape (l : List Str) (h : l.length = 4) :
    ∃ a b c d, l = [a, b, c, d] := by
  match l, h with
  | [a, b, c, d], _ => exact ⟨a, b, c, d, rfl⟩

/-- C1: With the default retries (3), for every input pair and every
service behaviour, `generate_name` returns a result record satisfying
exactly one of the two shapes: all domain fields populated with `error`
null, or all domain fields null with `error` a non-empty string —
never both, never neither, and no exception escapes. -/
theorem claim_C1 (svc : Service) (animal_type pet_color : Str) :
    ∃ r : GenResult,
      (generate_name svc animal_type pet_color 3).1 = Except.ok (some r) ∧
      ((allPopulated r ∧ ¬ allNullWithError r) ∨
       (allNullWithError r ∧ ¬ allPopulated r)) := by
  by_cases hv : pyStrip animal_type = [] ∨ pyStrip pet_color = []
  · refine ⟨failureResult validationMsg, ?_,
      Or.inr ⟨failureResult_shape _, fun hp => not_both_shapes _ hp (failureResult_shape _)⟩⟩
    rw [(generate_name_invalid svc _ _ 3 hv).1]
  · obtain ⟨out, cnt, hloop, hshape⟩ :=
      loopGo_total svc (promptFor animal_type pet_color) 3 3 0 (by omega) (by omega)
    have hal : attemptLoop svc (promptFor animal_type pet_color) 3 = (some out, cnt) := by
      rw [attemptLoop_eq_range']
      exact hloop
    cases out with
    | ok g =>
      obtain ⟨a, b, c, d, rfl⟩ := hshape g rfl
      refine ⟨successResult a b c d, ?_,
        Or.inl ⟨successResult_shape a b c d,
          fun hn => not_both_shapes _ (successResult_shape a b c d) hn⟩⟩
      rw [generate_name_valid_ok svc _ _ 3 hv _ cnt hal]
    | error e =>
      refine ⟨failureResult e, ?_,
        Or.inr ⟨failureResult_shape e, fun hp => not_both_shapes _ hp (failureResult_shape e)⟩⟩
      rw [generate_name_valid_err svc _ _ 3 hv e cnt hal]

/-- C2: If `animal_type` or `pet_color` is empty after trimming,
`generate_name` returns a record with `error` set (non-empty) and
`name = None`, and the service is invoked zero times. -/
theorem claim_C2 (svc : Service) (animal_type pet_color : Str) (retries : Nat)
    (h : pyStrip animal_type = [] ∨ pyStrip pet_color = []) :
    ∃ e : Str,
      generate_name svc animal_type pet_color retries =
        (Except.ok (some ⟨none, none, none, none, some e⟩), 0) ∧ e ≠ [] := by
  refine ⟨errMsgHead ++ validationMsg, ?_, errMsg_ne_nil validationMsg⟩
  rw [(generate_name_invalid svc _ _ retries h).1]
  rfl

/-- C3: An attempt's parse succeeds if and only if splitting the
response text on the literal `|` yields exactly 4 segments. -/
theorem claim_C3 (resp : Str) :
    (∃ g, parseResponse resp = Except.ok g) ↔
      (splitOnChar '|' resp).length = 4 := by
  rw [parseResponse_ok_iff, length_split_pyStrip '|' resp isSpaceChar_bar]

/-- C4: If every service call either raises or returns a response whose
`|`-split does not have exactly 4 segments, `generate_name` (valid
inputs, `retries ≥ 1`) makes exactly `retries` service calls and
returns — without raising — a record with all domain fields null and an
error message embedding the last failure's description. -/
theorem claim_C4 (svc : Service) (animal_type pet_color : Str) (retries : Nat)
    (hv : ¬(pyStrip animal_type = [] ∨ pyStrip pet_color = []))
    (hr : 1 ≤ retries)
    (hfail : ∀ k, k < retries →
      (∃ m, svc (promptFor animal_type pet_color) k = Except.error m) ∨
      (∃ resp, svc (promptFor animal_type pet_color) k = Except.ok resp ∧
        (splitOnChar '|' resp).length ≠ 4)) :
    generate_name svc animal_type pet_color retries =
      (Except.ok (some (failureResult
        (describeFailure svc (promptFor animal_type pet_color) (retries - 1)))),
       retries) := by
  have herr : ∀ k, 0 ≤ k → k < retries →
      invokeAndParse svc (promptFor animal_type pet_color) k =
        Except.error (describeFailure svc (promptFor animal_type pet_color) k) :=
    fun k _ hk => attempt_fails svc _ k (hfail k hk)
  have hloop := loopGo_allfail svc (promptFor animal_type pet_color) retries
    (describeFailure svc (promptFor animal_type pet_color)) retries 0 (by omega) hr herr
  exact generate_name_valid_err svc _ _ retries hv _ retries
    (by rw [attemptLoop_eq_range']; exact hloop)

/-- C5: If the service returns a malformed (wrong segment count)
response on the first `k` calls and a well-formed 4-segment response on
call `k+1` (`k < retries`), `generate_name` (valid inputs) succeeds
using exactly `k+1` service calls and each returned field is the
corresponding segment of the final response, trimmed of surrounding
whitespace. -/
theorem claim_C5 (svc : Service) (animal_type pet_color : Str) (retries k : Nat)
    (resp s1 s2 s3 s4 : Str)
    (hv : ¬(pyStrip animal_type = [] ∨ pyStrip pet_color = []))
    (hk : k < retries)
    (hfail : ∀ j, j < k → ∃ rj,
      svc (promptFor animal_type pet_color) j = Except.ok rj ∧
      (splitOnChar '|' rj).length ≠ 4)
    (hok : svc (promptFor animal_type pet_color) k = Except.ok resp)
    (hsplit : splitOnChar '|' resp = [s1, s2, s3, s4]) :
    generate_name svc animal_type pet_color retries =
      (Except.ok (some ⟨some (pyStrip s1), some (pyStrip s2), some (pyStrip s3),
        some (pyStrip s4), none⟩), k + 1) := by
  have hlen4 : (splitOnChar '|' (pyStrip resp)).length = 4 := by
    rw [length_split_pyStrip '|' resp isSpaceChar_bar, hsplit]
    rfl
  obtain ⟨u1, u2, u3, u4, hu⟩ := length_eq_four_shape _ hlen4
  have hmap := map_pyStrip_split_pyStrip '|' resp isSpaceChar_bar
  rw [hu, hsplit] at hmap
  simp only [List.map_cons, List.map_nil, List.cons.injEq, and_true] at hmap
  obtain ⟨e1, e2, e3, e4⟩ := hmap
  have hrec : successResult u1 u2 u3 u4 =
      (⟨some (pyStrip s1), some (pyStrip s2), some (pyStrip s3),
        some (pyStrip s4), none⟩ : GenResult) := by
    rw [successResult, e1, e2, e3, e4]
  have hinv : invokeAndParse svc (promptFor animal_type pet_color) k =
      Except.ok (⟨some (pyStrip s1), some (pyStrip s2), some (pyStrip s3),
        some (pyStrip s4), none⟩ : GenResult) := by
    rw [invokeAndParse, hok, ← hrec]
    exact parseResponse_of_split4 resp u1 u2 u3 u4 hu
  have herr : ∀ j, 0 ≤ j → j < 0 + k → ∃ e,
      invokeAndParse svc (promptFor animal_type pet_color) j = Except.error e := by
    intro j _ hj
    rw [Nat.zero_add] at hj
    obtain ⟨rj, hrj, hlenj⟩ := hfail j hj
    exact ⟨describeFailure svc _ j, attempt_fails svc _ j (Or.inr ⟨rj, hrj, hlenj⟩)⟩
  have hloop := loopGo_fail_then_ok svc (promptFor animal_type pet_color) retries _
    k retries 0 (by omega) hk herr (by rw [Nat.zero_add]; exact hinv)
  exact generate_name_valid_ok svc _ _ retries hv _ (k + 1)
    (by rw [attemptLoop_eq_range']; exact hloop)

/-- C6: If every service call returns a correctly-delimited 4-segment
response, `generate_name` (valid inputs, `retries ≥ 1`) returns a fully
populated result with `error = None` using exactly one service call. -/
theorem claim_C6 (svc : Service) (animal_type pet_color : Str) (retries : Nat)
    (hv : ¬(pyStrip animal_type = [] ∨ pyStrip pet_color = []))
    (hr : 1 ≤ retries)
    (hgood : ∀ j : Nat, ∃ rj,
      svc (promptFor animal_type pet_color) j = Except.ok rj ∧
      (splitOnChar '|' rj).length = 4) :
    ∃ r : GenResult,
      generate_name svc animal_type pet_color retries = (Except.ok (some r), 1) ∧
      allPopulated r := by
  obtain ⟨r0, hok0, hlen0⟩ := hgood 0
  have hlen4 : (splitOnChar '|' (pyStrip r0)).length = 4 := by
    rw [length_split_pyStrip '|' r0 isSpaceChar_bar]
    exact hlen0
  obtain ⟨u1, u2, u3, u4, hu⟩ := length_eq_four_shape _ hlen4
  have hinv : invokeAndParse svc (promptFor animal_type pet_color) 0 =
      Except.ok (successResult u1 u2 u3 u4) := by
    rw [invokeAndParse, hok0]
    exact parseResponse_of_split4 r0 u1 u2 u3 u4 hu
  have hloop := loopGo_fail_then_ok svc (promptFor animal_type pet_color) retries
    (successResult u1 u2 u3 u4) 0 retries 0 (by omega) (by omega)
    (fun j _ hj => absurd hj (by omega)) hinv
  exact ⟨successResult u1 u2 u3 u4,
    generate_name_valid_ok svc _ _ retries hv _ 1
      (by rw [attemptLoop_eq_range']; exact hloop),
    successResult_shape u1 u2 u3 u4⟩

/-- C7: For valid inputs, the normalized (lower-cased, trimmed) fields
interpolated into the prompt are non-empty; the result depends on the
service only through the single normalized prompt; and the prompt is
invariant under surrounding whitespace and casing of the inputs. -/
theorem claim_C7 (animal_type pet_color : Str)
    (h1 : pyStrip animal_type ≠ []) (h2 : pyStrip pet_color ≠ []) :
    normalizeField animal_type ≠ [] ∧ normalizeField pet_color ≠ [] ∧
    (∀ (retries : Nat) (svc₁ svc₂ : Service),
      (∀ k, svc₁ (promptFor animal_type pet_color) k =
        svc₂ (promptFor animal_type pet_color) k) →
      generate_name svc₁ animal_type pet_color retries =
        generate_name svc₂ animal_type pet_color retries) ∧
    (∀ a2 c2 w₁ w₂ w₃ w₄, allWs w₁ → allWs w₂ → allWs w₃ → allWs w₄ →
      pyLower a2 = pyLower animal_type → pyLower c2 = pyLower pet_color →
      promptFor (w₁ ++ a2 ++ w₂) (w₃ ++ c2 ++ w₄) =
        promptFor animal_type pet_color) := by
  refine ⟨normalizeField_ne_nil _ h1, normalizeField_ne_nil _ h2, ?_, ?_⟩
  · intro retries svc₁ svc₂ hsvc
    exact generate_name_congr svc₁ svc₂ _ _ retries (fun kk _ => hsvc kk)
  · intro a2 c2 w₁ w₂ w₃ w₄ hw₁ hw₂ hw₃ hw₄ ha hc
    have hna : normalizeField a2 = normalizeField animal_type := by
      rw [normalizeField, normalizeField, ha]
    have hnc : normalizeField c2 = normalizeField pet_color := by
      rw [normalizeField, normalizeField, hc]
    rw [promptFor, promptFor, normalizeField_ws_pad a2 w₁ w₂ hw₁ hw₂,
      normalizeField_ws_pad c2 w₃ w₄ hw₃ hw₄, hna, hnc]

/-- C8 counterexample: with an empty `animal_type`, `generate_name`
does NOT raise the `ValueError` to its caller — it returns a normal
result record carrying the wrapped validation message (the outer
handler recovers the exception inside the function). -/
theorem claim_C8_counterexample :
    generate_name svcRaise "".data "black".data 3 =
      (Except.ok (some (failureResult validationMsg)), 0) ∧
    (generate_name svcRaise "".data "black".data 3).1 ≠
      Except.error validationMsg := by
  decide

/-- C8 (amended): when a required field is empty after trimming, the
`ValueError` is raised immediately inside the pipeline — before any
service call, with no partial result — but it is caught by
`generate_name`'s own outer handler and returned as an error record;
it does not propagate to the caller. -/
theorem claim_C8_amended (svc : Service) (animal_type pet_color : Str)
    (retries : Nat) (h : pyStrip animal_type = [] ∨ pyStrip pet_color = []) :
    generate_name_body svc animal_type pet_color retries =
      (Except.error validationMsg, 0) ∧
    generate_name svc animal_type pet_color retries =
      (Except.ok (some (failureResult validationMsg)), 0) := by
  obtain ⟨hg, hb⟩ := generate_name_invalid svc animal_type pet_color retries h
  exact ⟨hb, hg⟩

/-- C9: the pipeline is deterministic apart from the service: two
services that agree on the calls the loop can make (all prompts,
indices below `retries`) yield identical results — all variability
lives in the external service. -/
theorem claim_C9 (svc₁ svc₂ : Service) (animal_type pet_color : Str)
    (retries : Nat) (h : ∀ p k, k < retries → svc₁ p k = svc₂ p k) :
    generate_name svc₁ animal_type pet_color retries =
      generate_name svc₂ animal_type pet_color retries :=
  generate_name_congr svc₁ svc₂ animal_type pet_color retries
    (fun k hk => h _ k hk)

/-- C10: with `retries = 0` and valid inputs the loop body never runs
and `generate_name` returns Python `None` (no result record at all),
with zero service calls. -/
theorem claim_C10 (svc : Service) (animal_type pet_color : Str)
    (h : ¬(pyStrip animal_type = [] ∨ pyStrip pet_color = [])) :
    generate_name svc animal_type pet_color 0 = (Except.ok none, 0) := by
  apply generate_name_valid_none svc _ _ 0 h 0
  rfl

theorem claim_C2_witness :
    (pyStrip "".data = [] ∨ pyStrip "Black".data = []) ∧
    ∃ e : Str,
      generate_name svcRaise "".data "Black".data 3 =
        (Except.ok (some ⟨none, none, none, none, some e⟩), 0) ∧ e ≠ [] :=
  ⟨by decide, claim_C2 svcRaise "".data "Black".data 3 (by decide)⟩

theorem claim_C4_witness :
    ¬(pyStrip "cat".data = [] ∨ pyStrip "black".data = []) ∧
    generate_name svcRaise "cat".data "black".data 3 =
      (Except.ok (some (failureResult
        (describeFailure svcRaise (promptFor "cat".data "black".data) 2))), 3) :=
  ⟨by decide, claim_C4 svcRaise "cat".data "black".data 3 (by decide) (by decide)
    (fun _ _ => Or.inl ⟨"service unavailable".data, rfl⟩)⟩

theorem claim_C5_witness :
    ¬(pyStrip "cat".data = [] ∨ pyStrip "black".data = []) ∧ 2 < 3 ∧
    generate_name svcFlaky "cat".data "black".data 3 =
      (Except.ok (some ⟨some (pyStrip " Shadow ".data),
        some (pyStrip " dark coat ".data), some (pyStrip " revered in Egypt ".data),
        some (pyStrip " Shadie ".data), none⟩), 3) :=
  ⟨by decide, by decide,
    claim_C5 svcFlaky "cat".data "black".data 3 2
      " Shadow | dark coat | revered in Egypt | Shadie ".data
      " Shadow ".data " dark coat ".data " revered in Egypt ".data " Shadie ".data
      (by decide) (by decide)
      (fun j hj => ⟨"oops".data, by simp only [svcFlaky]; rw [if_pos hj], by decide⟩)
      (by rfl) (by decide)⟩

theorem claim_C6_witness :
    ¬(pyStrip "cat".data = [] ∨ pyStrip "black".data = []) ∧ 1 ≤ 3 ∧
    ∃ r : GenResult,
      generate_name svcGood "cat".data "black".data 3 = (Except.ok (some r), 1) ∧
      allPopulated r :=
  ⟨by decide, by decide,
    claim_C6 svcGood "cat".data "black".data 3 (by decide) (by decide)
      (fun _ => ⟨"Luna | moon name | Luna is the Roman goddess of the moon | Lunie".data,
        rfl, by decide⟩)⟩

theorem claim_C7_witness :
    normalizeField "cat".data ≠ [] ∧ normalizeField "black".data ≠ [] ∧
    generate_name svcGood "cat".data "black".data 3 =
      generate_name (svcGoodAt (promptFor "cat".data "black".data))
        "cat".data "black".data 3 ∧
    promptFor ("  ".data ++ "cAt".data ++ " ".data)
        ("".data ++ "BLACK".data ++ " ".data) =
      promptFor "cat".data "black".data := by
  obtain ⟨hn1, hn2, hcong, hprompt⟩ :=
    claim_C7 "cat".data "black".data (by decide) (by decide)
  exact ⟨hn1, hn2,
    hcong 3 svcGood (svcGoodAt (promptFor "cat".data "black".data))
      (fun k => by simp [svcGoodAt]),
    hprompt "cAt".data "BLACK".data "  ".data " ".data "".data " ".data
      (by decide) (by decide) (by decide) (by decide) (by decide) (by decide)⟩

theorem claim_C8_amended_witness :
    (pyStrip " ".data = [] ∨ pyStrip "black".data = []) ∧
    generate_name_body svcRaise " ".data "black".data 3 =
      (Except.error validationMsg, 0) ∧
    generate_name svcRaise " ".data "black".data 3 =
      (Except.ok (some (failureResult validationMsg)), 0) :=
  ⟨by decide, claim_C8_amended svcRaise " ".data "black".data 3 (by decide)⟩

theorem claim_C9_witness :
    generate_name svcGood "cat".data "black".data 3 =
      generate_name svcGoodThenRaise "cat".data "black".data 3 :=
  claim_C9 svcGood svcGoodThenRaise "cat".data "black".data 3
    (fun p k hk => by simp [svcGoodThenRaise, hk])

theorem claim_C10_witness :
    ¬(pyStrip "cat".data = [] ∨ pyStrip "black".data = []) ∧
    generate_name svcRaise "cat".data "black".data 0 = (Except.ok none, 0) :=
  ⟨by decide, claim_C10 svcRaise "cat".data "black".data (by decide)⟩
